import Mathlib

/-!
# Verification of the request-binding and response-shaping model of
# `fastapi_tutorial` (`src/main.py`)

The repository declares pydantic models (`Item`, `Image`, `Offer`,
`UserIn`/`UserOut`/`UserInDB`, `BaseItem`/`CarItem`/`PlaneItem`), an enum
(`ModelName`), fake in-memory tables (`items`, `vehicle_items`) and FastAPI
route handlers.  The binding/validation engine itself lives in the FastAPI
and pydantic libraries, which are not part of the repository; its behaviour
is modelled here from the specification's description of the
binder/validator (extraction, missing-value policy, coercion, constraint
application, aggregation, response shaping).  The concrete field
declarations, defaults, constraints, stored tables and handler bodies are
translated directly from `src/main.py`.

JSON numbers are modelled as exact decimals (an integer mantissa scaled by
a power of ten); every numeric literal of the source (`50.2`, `10.5`, …)
is such a decimal, so no floating-point behaviour is involved in any
claim.  `Decimal.toRat` interprets a decimal as a rational and is used to
state numeric-order facts.
-/

namespace FastapiTutorial

/-- An exact decimal number `mantissa / 10 ^ exponent`, the number type of
JSON payloads in this development. -/
structure Decimal where
  mantissa : Int
  exponent : Nat
  deriving DecidableEq, Repr

/-- The rational value denoted by a decimal. -/
def Decimal.toRat (d : Decimal) : ℚ := d.mantissa / 10 ^ d.exponent

/-- Strict numeric comparison of decimals, by cross-multiplying the
mantissas with the opposite powers of ten. -/
def Decimal.blt (a b : Decimal) : Bool :=
  decide (a.mantissa * 10 ^ b.exponent < b.mantissa * 10 ^ a.exponent)

/-- A JSON-like value, the payload type of request bodies and responses. -/
inductive JsonValue where
  | null : JsonValue
  | str : String → JsonValue
  | num : Decimal → JsonValue
  | bool : Bool → JsonValue
  | arr : List JsonValue → JsonValue
  | obj : List (String × JsonValue) → JsonValue

/-- Modelled from the spec: validating constraints attached to a field
(`MinLength`, `MaxLength`, `GreaterThan`); `Alias`/`Title`/`Description`
are metadata only and non-validating, hence not represented. -/
inductive Constraint where
  | minLength (n : ℕ)
  | maxLength (n : ℕ)
  | greaterThan (bound : Decimal)
  deriving DecidableEq, Repr

/-- Modelled from the spec: the source location a field is extracted from. -/
inductive Source where
  | path | query | header | cookie | formField | body
  deriving DecidableEq, Repr

/-- Modelled from the spec: the error taxonomy of the binder
(`Missing`, `TypeMismatch`, `ConstraintViolation`); a `TypeMismatch` on a
closed enumeration lists the permitted values. -/
inductive ErrorKind where
  | missing
  | typeMismatch (permitted : List String)
  | constraintViolation (c : Constraint)
  deriving DecidableEq, Repr

/-- Modelled from the spec: one structured validation error, locating the
offending field by source and name. -/
structure ValidationError where
  source : Source
  name : String
  kind : ErrorKind
  deriving DecidableEq, Repr

/-- Primitive field types of the declarations in `src/main.py`. -/
inductive PrimType where
  | str | num | int | bool
  | enumOf (lits : List String)
  | httpUrl
  deriving DecidableEq, Repr

/-- A field of a nested (non-recursive) model such as `Image`. -/
structure PrimField where
  name : String
  type : PrimType
  required : Bool
  default : Option JsonValue
  constraints : List Constraint

/-- The type of a top-level model field: a primitive, a list of
primitives (`tags: List[str]`), or a list of nested model objects
(`image: Optional[List[Image]]`). -/
inductive FieldType where
  | prim (t : PrimType)
  | listOf (t : PrimType)
  | listOfModel (fields : List PrimField)

/-- A field declaration: name, extraction source, type, requiredness,
default, nullability (`Optional[...]`) and validating constraints. -/
structure FieldSpec where
  name : String
  source : Source
  type : FieldType
  required : Bool
  default : Option JsonValue
  nullable : Bool
  constraints : List Constraint

/-- A bound field of a model instance.  `wasSet` records whether the value
was explicitly supplied by the input (as opposed to filled from the
default); the `ExcludeUnset` shaping policy reads this flag. -/
structure BoundField where
  name : String
  value : JsonValue
  wasSet : Bool

/-- Does a decimal denote an integer?  (Its mantissa is divisible by its
scale.) -/
def Decimal.isInt (d : Decimal) : Bool :=
  decide (d.mantissa % ((10 : Int) ^ d.exponent) = 0)

/-- Modelled from the spec: URL well-formedness for `HttpUrl` fields —
scheme and host must be present.  Modelled as: the string starts with an
`http`/`https` scheme and a nonempty host follows. -/
def hasSchemeAndHost (s : String) : Bool :=
  (s.startsWith "http://" && decide (7 < s.length)) ||
  (s.startsWith "https://" && decide (8 < s.length))

/-- Modelled from the spec: coercion of a body (JSON) value to a declared
primitive type.  On failure the error carries the permitted values when
the target is a closed enumeration (`TypeMismatch` lists them), and is
empty otherwise. -/
def coercePrimJson (t : PrimType) (v : JsonValue) : Except (List String) JsonValue :=
  match t, v with
  | .str, .str s => .ok (.str s)
  | .num, .num d => .ok (.num d)
  | .int, .num d => if d.isInt then .ok (.num d) else .error []
  | .bool, .bool b => .ok (.bool b)
  | .enumOf lits, .str s => if lits.contains s then .ok (.str s) else .error lits
  | .httpUrl, .str s => if hasSchemeAndHost s then .ok (.str s) else .error []
  | .enumOf lits, _ => .error lits
  | _, _ => .error []

/-- Parse a nonempty list of decimal digits. -/
def parseDigits? (cs : List Char) : Option Nat :=
  if cs ≠ [] ∧ cs.all Char.isDigit then
    some (cs.foldl (fun a c => a * 10 + (c.toNat - 48)) 0)
  else none

/-- Parse an optionally signed integer numeral. -/
def parseInt? (s : String) : Option Int :=
  match s.data with
  | '-' :: cs => (parseDigits? cs).map (fun n => -(n : Int))
  | cs => (parseDigits? cs).map (fun n => (n : Int))

/-- Parse an optionally signed decimal numeral (with an optional single
fractional part) into an exact decimal. -/
def parseDecimal? (s : String) : Option Decimal :=
  let signed : Bool := s.startsWith "-"
  let body := if signed then s.drop 1 else s
  let parts := body.splitOn "."
  match parts with
  | [intPart] =>
    (parseDigits? intPart.data).map
      (fun n => ⟨if signed then -(n : Int) else (n : Int), 0⟩)
  | [intPart, fracPart] =>
    match parseDigits? intPart.data, parseDigits? fracPart.data with
    | some n, some f =>
      let m : Int := (n : Int) * 10 ^ fracPart.length + (f : Int)
      some ⟨if signed then -m else m, fracPart.length⟩
    | _, _ => none
  | _ => none

/-- Modelled from the spec: boolean coercion of a raw string parameter. -/
def parseBool? (s : String) : Option Bool :=
  if s ∈ ["true", "True", "1", "yes", "on"] then some true
  else if s ∈ ["false", "False", "0", "no", "off"] then some false
  else none

/-- Modelled from the spec: coercion of a raw string (path, query, header,
cookie or form value) to a declared primitive type. -/
def coercePrimRaw (t : PrimType) (s : String) : Except (List String) JsonValue :=
  match t with
  | .str => .ok (.str s)
  | .num =>
    match parseDecimal? s with
    | some d => .ok (.num d)
    | none => .error []
  | .int =>
    match parseInt? s with
    | some i => .ok (.num ⟨i, 0⟩)
    | none => .error []
  | .bool =>
    match parseBool? s with
    | some b => .ok (.bool b)
    | none => .error []
  | .enumOf lits => if lits.contains s then .ok (.str s) else .error lits
  | .httpUrl => if hasSchemeAndHost s then .ok (.str s) else .error []

/-- Modelled from the spec: is one constraint satisfied by a coerced
value?  `MinLength`/`MaxLength` bound string length inclusively at the
boundary; `GreaterThan` is strict numeric comparison. -/
def Constraint.satisfied : Constraint → JsonValue → Bool
  | .minLength n, .str s => decide (n ≤ s.length)
  | .maxLength n, .str s => decide (s.length ≤ n)
  | .greaterThan b, .num d => b.blt d
  | _, _ => true

/-- The first violated constraint of a field, if any. -/
def firstViolated (cs : List Constraint) (v : JsonValue) : Option Constraint :=
  cs.find? (fun c => !(c.satisfied v))

/-- Bind one field of a nested (primitive-only) model such as `Image`
against an object document. -/
def bindPrimField (doc : List (String × JsonValue)) (f : PrimField) :
    Except ErrorKind (String × JsonValue) :=
  match doc.lookup f.name with
  | some v =>
    match coercePrimJson f.type v with
    | .error lits => .error (.typeMismatch lits)
    | .ok v' =>
      match firstViolated f.constraints v' with
      | some c => .error (.constraintViolation c)
      | none => .ok (f.name, v')
  | none =>
    match f.default with
    | some d => .ok (f.name, d)
    | none => if f.required then .error .missing else .ok (f.name, .null)

/-- Bind a JSON value against a nested model (it must be an object whose
fields all bind). -/
def bindPrimModel (fields : List PrimField) (v : JsonValue) :
    Except (List String) JsonValue :=
  match v with
  | .obj doc =>
    match fields.mapM (bindPrimField doc) with
    | .ok kvs => .ok (.obj kvs)
    | .error _ => .error []
  | _ => .error []

/-- Modelled from the spec: coercion of a body value at a field type —
a primitive, a homogeneous list of primitives, or a list of nested model
objects, each element coerced recursively. -/
def coerceField (t : FieldType) (v : JsonValue) : Except (List String) JsonValue :=
  match t with
  | .prim p => coercePrimJson p v
  | .listOf p =>
    match v with
    | .arr xs =>
      match xs.mapM (coercePrimJson p) with
      | .ok ys => .ok (.arr ys)
      | .error l => .error l
    | _ => .error []
  | .listOfModel fields =>
    match v with
    | .arr xs =>
      match xs.mapM (bindPrimModel fields) with
      | .ok ys => .ok (.arr ys)
      | .error l => .error l
    | _ => .error []

/-- An incoming request, after transport-layer parsing: raw string
key-value pairs per source, plus a parsed JSON body object. -/
structure Request where
  pathParams : List (String × String)
  queryParams : List (String × String)
  headers : List (String × String)
  cookies : List (String × String)
  formFields : List (String × String)
  body : List (String × JsonValue)

/-- A request carrying only a body document (also used to validate a
server-constructed document against a response model). -/
def Request.ofBody (doc : List (String × JsonValue)) : Request :=
  ⟨[], [], [], [], [], doc⟩

/-- A request carrying only path parameters. -/
def Request.ofPath (ps : List (String × String)) : Request :=
  ⟨ps, [], [], [], [], []⟩

/-- A request carrying only query parameters. -/
def Request.ofQuery (qs : List (String × String)) : Request :=
  ⟨[], qs, [], [], [], []⟩

/-- Modelled from the spec: header keys match case-insensitively. -/
def headerLookup (hs : List (String × String)) (name : String) : Option String :=
  (hs.find? (fun kv => kv.1.toLower == name.toLower)).map Prod.snd

/-- Modelled from the spec: extraction of the raw string value of a field
from its declared source. -/
def Request.rawValue (req : Request) (src : Source) (name : String) : Option String :=
  match src with
  | .path => req.pathParams.lookup name
  | .query => req.queryParams.lookup name
  | .header => headerLookup req.headers name
  | .cookie => req.cookies.lookup name
  | .formField => req.formFields.lookup name
  | .body => none

/-- Modelled from the spec: missing-value policy.  If a default exists it
is used (and the field counts as not explicitly set); a required field
without default yields `Missing`; an optional field without explicit
default defaults to null. -/
def bindAbsent (f : FieldSpec) : Except ValidationError BoundField :=
  match f.default with
  | some d => .ok ⟨f.name, d, false⟩
  | none =>
    if f.required then .error ⟨f.source, f.name, .missing⟩
    else .ok ⟨f.name, .null, false⟩

/-- Modelled from the spec: a present value is first coerced, then the
constraints are applied; the first violated constraint is reported as a
`ConstraintViolation` naming the offending bound. -/
def bindPresent (f : FieldSpec) (coerced : Except (List String) JsonValue) :
    Except ValidationError BoundField :=
  match coerced with
  | .error lits => .error ⟨f.source, f.name, .typeMismatch lits⟩
  | .ok v =>
    match firstViolated f.constraints v with
    | some c => .error ⟨f.source, f.name, .constraintViolation c⟩
    | none => .ok ⟨f.name, v, true⟩

/-- Modelled from the spec: bind one declared field against a request:
extract by source, apply the missing-value policy, coerce, constrain. -/
def bindField (req : Request) (f : FieldSpec) : Except ValidationError BoundField :=
  match f.source with
  | .body =>
    match req.body.lookup f.name with
    | none => bindAbsent f
    | some .null =>
      if f.nullable then .ok ⟨f.name, .null, true⟩
      else bindPresent f (coerceField f.type .null)
    | some v => bindPresent f (coerceField f.type v)
  | src =>
    match req.rawValue src f.name with
    | none => bindAbsent f
    | some s =>
      match f.type with
      | .prim p => bindPresent f (coercePrimRaw p s)
      | _ => bindPresent f (.error [])

/-- The per-field results of binding a spec list, in declaration order. -/
def bindResults (specs : List FieldSpec) (req : Request) :
    List (Except ValidationError BoundField) :=
  specs.map (bindField req)

/-- Modelled from the spec: all validation errors of a request, collected
across all fields in declaration order (no short-circuit). -/
def bindErrors (specs : List FieldSpec) (req : Request) : List ValidationError :=
  (bindResults specs req).filterMap
    (fun r => match r with | .error e => some e | .ok _ => none)

/-- The successfully bound fields, in declaration order. -/
def bindValues (specs : List FieldSpec) (req : Request) : List BoundField :=
  (bindResults specs req).filterMap
    (fun r => match r with | .ok b => some b | .error _ => none)

/-- Modelled from the spec: the binder contract — success with the
ordered bound mapping exactly when zero errors were collected, otherwise
failure with every collected error. -/
def bind (specs : List FieldSpec) (req : Request) :
    Except (List ValidationError) (List BoundField) :=
  if bindErrors specs req = [] then .ok (bindValues specs req)
  else .error (bindErrors specs req)

/-- Modelled from the spec: a response-shaping policy (`allFields` is the
default serialization of a response model with no include/exclude). -/
inductive ShapingPolicy where
  | includeOnly (names : List String)
  | excludeOnly (names : List String)
  | excludeUnset
  | allFields

/-- Modelled from the spec: shape a bound model instance into an ordered
response mapping, retaining fields per the policy and preserving the
model's original field order. -/
def shape (p : ShapingPolicy) (inst : List BoundField) : List (String × JsonValue) :=
  match p with
  | .includeOnly ns => (inst.filter (fun b => ns.contains b.name)).map (fun b => (b.name, b.value))
  | .excludeOnly ns => (inst.filter (fun b => !ns.contains b.name)).map (fun b => (b.name, b.value))
  | .excludeUnset => (inst.filter (fun b => b.wasSet)).map (fun b => (b.name, b.value))
  | .allFields => inst.map (fun b => (b.name, b.value))

/-! ## The declarations of `src/main.py` -/

/-- The `Image` model: `url: HttpUrl`, `name: str`. -/
def imageFields : List PrimField :=
  [⟨"url", .httpUrl, true, none, []⟩,
   ⟨"name", .str, true, none, []⟩]

/-- The `Item.description` field: `Optional[str]` with `max_length=300`,
default `None`. -/
def descriptionSpec : FieldSpec :=
  ⟨"description", .body, .prim .str, false, some .null, true, [.maxLength 300]⟩

/-- The `Item` model: `name: str` (required), `description: Optional[str]`
with `max_length=300` (default `None`), `price: float` required with
`gt=0`, `tax: float = 10.5`, `tags: List[str] = []`,
`image: Optional[List[Image]] = None`; all bound from the body. -/
def itemFields : List FieldSpec :=
  [⟨"name", .body, .prim .str, true, none, false, []⟩,
   descriptionSpec,
   ⟨"price", .body, .prim .num, true, none, false, [.greaterThan ⟨0, 0⟩]⟩,
   ⟨"tax", .body, .prim .num, false, some (.num ⟨105, 1⟩), false, []⟩,
   ⟨"tags", .body, .listOf .str, false, some (.arr []), false, []⟩,
   ⟨"image", .body, .listOfModel imageFields, false, some .null, true, []⟩]

/-- The `PlaneItem` model: `description: str` required (from `BaseItem`),
`type` defaulting to `"plane"`. -/
def planeItemFields : List FieldSpec :=
  [⟨"description", .body, .prim .str, true, none, false, []⟩,
   ⟨"type", .body, .prim .str, false, some (.str "plane"), false, []⟩]

/-- The `CarItem` model: `description: str` required (from `BaseItem`),
`type` defaulting to `"car"`. -/
def carItemFields : List FieldSpec :=
  [⟨"description", .body, .prim .str, true, none, false, []⟩,
   ⟨"type", .body, .prim .str, false, some (.str "car"), false, []⟩]

/-- The `ModelName` enum: `alexnet`, `resnet`, `lenet`. -/
inductive ModelName where
  | alexnet | resnet | lenet
  deriving DecidableEq, Repr

/-- The underlying string value of a `ModelName` member. -/
def ModelName.value : ModelName → String
  | .alexnet => "alexnet"
  | .resnet => "resnet"
  | .lenet => "lenet"

/-- The permitted string literals of the `ModelName` enumeration. -/
def modelNameLits : List String := ["alexnet", "resnet", "lenet"]

/-- Coercion of a raw path segment into the `ModelName` enumeration. -/
def ModelName.ofString? (s : String) : Option ModelName :=
  if s = "alexnet" then some .alexnet
  else if s = "resnet" then some .resnet
  else if s = "lenet" then some .lenet
  else none

/-- The `items` fake table. -/
def items : List (String × List (String × JsonValue)) :=
  [("foo", [("name", .str "Foo"), ("price", .num ⟨502, 1⟩)]),
   ("bar", [("name", .str "Bar"), ("description", .str "The Bar Fighters"),
            ("price", .num ⟨62, 0⟩), ("tax", .num ⟨202, 1⟩)]),
   ("baz", [("name", .str "Baz"), ("description", .str "There goes my baz"),
            ("price", .num ⟨502, 1⟩), ("tax", .num ⟨105, 1⟩)])]

/-- The `vehicle_items` fake table. -/
def vehicle_items : List (String × List (String × JsonValue)) :=
  [("item1", [("description", .str "All my friends drive a low rider"),
              ("type", .str "car")]),
   ("item2", [("description", .str "Music is my aeroplane, it\x27s my aeroplane"),
              ("type", .str "plane"), ("size", .num ⟨5, 0⟩)])]

/-! ## Route handlers -/

/-- The outcome of running a handler: a JSON response, an unhandled
`KeyError` escaping a dictionary index, or an internal serialization
failure. -/
inductive HandlerOutcome where
  | response (fields : List (String × JsonValue))
  | keyError (key : String)
  | internalError

/-- Python dictionary indexing `d[k]`: the value when the key is present,
otherwise a `KeyError` carrying the key. -/
def dictGet {α : Type} (d : List (String × α)) (k : String) : Except String α :=
  match d.lookup k with
  | some v => .ok v
  | none => .error k

/-- Validate a stored document against the `Item` response model and shape
it under the given policy. -/
def serveItem (policy : ShapingPolicy) (doc : List (String × JsonValue)) :
    HandlerOutcome :=
  match bind itemFields (Request.ofBody doc) with
  | .ok inst => .response (shape policy inst)
  | .error _ => .internalError

/-- `GET /items/{item_id}` — `return items[item_id]`, serialized with
`response_model=Item, response_model_exclude_unset=True`. -/
def read_item_id (item_id : String) : HandlerOutcome :=
  match dictGet items item_id with
  | .ok doc => serveItem .excludeUnset doc
  | .error k => .keyError k

/-- `GET /items/{item_id}/name` — `return items[item_id]`, serialized
with `response_model_include={"name", "description"}`. -/
def read_item_name (item_id : String) : HandlerOutcome :=
  match dictGet items item_id with
  | .ok doc => serveItem (.includeOnly ["name", "description"]) doc
  | .error k => .keyError k

/-- `GET /items/{item_id}/public` — `return items[item_id]`, serialized
with `response_model_exclude={"tax"}`. -/
def read_item_public_data (item_id : String) : HandlerOutcome :=
  match dictGet items item_id with
  | .ok doc => serveItem (.excludeOnly ["tax"]) doc
  | .error k => .keyError k

/-- `GET /vehicle_items/{item_id}` — `return vehicle_items[item_id]`,
serialized with `response_model=Union[PlaneItem, CarItem]` (the first
variant that validates is used; the source relies on the library's
best-effort match order). -/
def read_vehicle_item (item_id : String) : HandlerOutcome :=
  match dictGet vehicle_items item_id with
  | .error k => .keyError k
  | .ok doc =>
    match bind planeItemFields (Request.ofBody doc) with
    | .ok inst => .response (shape .allFields inst)
    | .error _ =>
      match bind carItemFields (Request.ofBody doc) with
      | .ok inst => .response (shape .allFields inst)
      | .error _ => .internalError

/-- The path-parameter spec of `GET /models/{model_name}`: a closed
enumeration of the three `ModelName` literals. -/
def modelNamePathSpec : FieldSpec :=
  ⟨"model_name", .path, .prim (.enumOf modelNameLits), true, none, false, []⟩

/-- The body of `get_model` (`GET /models/{model_name}`), translated
branch for branch. -/
def get_model (model_name : ModelName) : List (String × JsonValue) :=
  if model_name = ModelName.alexnet then
    [("model_name", .str model_name.value), ("message", .str "Deep Learning FTW!")]
  else if model_name.value = "lenet" then
    [("model_name", .str model_name.value), ("message", .str "LeCNN all the images")]
  else
    [("model_name", .str model_name.value), ("message", .str "Have some residuals")]

/-- `GET /models/{model_name}` at the route level: the raw path segment is
bound against the closed enumeration (failing with `TypeMismatch` listing
the permitted values), then `get_model` runs. -/
def handle_get_model (seg : String) :
    Except ValidationError (List (String × JsonValue)) :=
  match ModelName.ofString? seg with
  | some m => .ok (get_model m)
  | none => .error ⟨.path, "model_name", .typeMismatch modelNameLits⟩

/-- Route matching for `GET /files/{file_path:path}`: after the static
`files` segment the wildcard greedily captures the remaining segments as
one string, rejoined with the separator. -/
def matchFilesRoute (segments : List String) : Option String :=
  match segments with
  | "files" :: rest => some (String.intercalate "/" rest)
  | _ => none

/-- The body of `read_file`: `return {"file_path": file_path}`. -/
def read_file (file_path : String) : List (String × JsonValue) :=
  [("file_path", .str file_path)]

/-- `GET /files/{file_path:path}` at the route level. -/
def handle_read_file (segments : List String) :
    Option (List (String × JsonValue)) :=
  (matchFilesRoute segments).map read_file

/-- The spec of the `needy` parameter of `read_user_item`
(`GET /users/{user_id}/items/{items_id}`): a required query string with no
default. -/
def needySpec : FieldSpec := ⟨"needy", .query, .prim .str, true, none, false, []⟩

/-- The spec of the `q` parameter of `read_user_item`. -/
def qUserItemSpec : FieldSpec := ⟨"q", .query, .prim .str, false, some .null, true, []⟩

/-- The spec of the `short` parameter of `read_user_item`. -/
def shortSpec : FieldSpec :=
  ⟨"short", .query, .prim .bool, false, some (.bool false), false, []⟩

/-- The full parameter spec list of `read_user_item`
(`GET /users/{user_id}/items/{items_id}`), in declaration order:
`user_id: int` is a path segment; `item_id: str` is not a segment of the
route template (which names `items_id`), so, per the source's own comment,
it is interpreted as a required query parameter; then `needy`, `q` and
`short`. -/
def readUserItemSpecs : List FieldSpec :=
  [⟨"user_id", .path, .prim .int, true, none, false, []⟩,
   ⟨"item_id", .query, .prim .str, true, none, false, []⟩,
   needySpec, qUserItemSpec, shortSpec]

/-- The spec of the `q` query parameter of `read_items` (`GET /items/`):
optional, default `None`, `min_length=3`, `max_length=50`. -/
def qItemsSpec : FieldSpec :=
  ⟨"q", .query, .prim .str, false, some .null, true, [.minLength 3, .maxLength 50]⟩

/-- The parameter specs of `GET /items/` (`read_items`):
`ads_id: Optional[str] = Cookie(None)`, `q: Optional[str] = Query(None,
min_length=3, max_length=50)`, `user_agent: Optional[str] = Header(None)`
(headers match case-insensitively under the hyphenated name). -/
def readItemsSpecs : List FieldSpec :=
  [⟨"ads_id", .cookie, .prim .str, false, some .null, true, []⟩,
   qItemsSpec,
   ⟨"user-agent", .header, .prim .str, false, some .null, true, []⟩]

/-- The parameter specs of `PUT /items/{item_id}` (`update_item`):
`item_id: int` from the path, then the `Item` body fields, in declaration
order. -/
def updateItemSpecs : List FieldSpec :=
  ⟨"item_id", .path, .prim .int, true, none, false, []⟩ :: itemFields

/-! ## The user models and `POST /user/` -/

/-- A bound `UserIn` body: `username`, `email`, `full_name` (optional),
`password`. -/
structure UserIn where
  username : String
  email : String
  full_name : Option String
  password : String

/-- A `UserInDB` instance: the `UserBase` fields plus `hashed_password`. -/
structure UserInDB where
  username : String
  email : String
  full_name : Option String
  hashed_password : String

/-- `fake_password_hasher`: `return "supersecret" + raw_password`. -/
def fake_password_hasher (raw_password : String) : String :=
  "supersecret" ++ raw_password

/-- `fake_save_user`: build a `UserInDB` from the `UserIn` fields and the
hashed password. -/
def fake_save_user (user_in : UserIn) : UserInDB :=
  ⟨user_in.username, user_in.email, user_in.full_name,
   fake_password_hasher user_in.password⟩

/-- An optional string as a JSON value. -/
def optStr : Option String → JsonValue
  | some s => .str s
  | none => .null

/-- Serialization of a stored user under `response_model=UserOut`: only
`username`, `email` and `full_name` are emitted, in model field order. -/
def serializeUserOut (u : UserInDB) : List (String × JsonValue) :=
  [("username", .str u.username), ("email", .str u.email),
   ("full_name", optStr u.full_name)]

/-- `POST /user/` (`create_user`): save the user, respond shaped by
`UserOut`. -/
def create_user (user_in : UserIn) : List (String × JsonValue) :=
  serializeUserOut (fake_save_user user_in)

/-! ## Concrete test inputs -/

/-- A 301-character string, one character over the `description` bound. -/
def longDescription : String := String.mk (List.replicate 301 'x')

/-- A 300-character string, exactly at the `description` bound. -/
def boundaryDescription : String := String.mk (List.replicate 300 'a')

/-- A `PUT /items/{item_id}` request with three simultaneously invalid
fields: a non-integer `item_id` path segment, a `description` exceeding
`MaxLength(300)` and a `price` violating `GreaterThan(0)`. -/
def multiFaultRequest : Request :=
  ⟨[("item_id", "abc")], [], [], [], [],
   [("name", .str "Foo"), ("description", .str longDescription),
    ("price", .num ⟨0, 0⟩)]⟩

/-! ## General lemmas about the binder -/

/-- `Decimal.blt` decides strict order of the denoted rationals. -/
theorem Decimal.blt_eq_true_iff (a b : Decimal) :
    a.blt b = true ↔ a.toRat < b.toRat := by
  unfold Decimal.blt Decimal.toRat
  rw [decide_eq_true_eq]
  rw [div_lt_div_iff₀ (by positivity) (by positivity)]
  constructor
  · intro hlt
    exact_mod_cast hlt
  · intro hlt
    exact_mod_cast hlt

/-- Binding succeeds exactly when zero validation errors were collected. -/
theorem bind_ok_iff (specs : List FieldSpec) (req : Request) :
    (∃ inst, bind specs req = .ok inst) ↔ bindErrors specs req = [] := by
  unfold bind
  constructor
  · rintro ⟨inst, h⟩
    by_contra hne
    rw [if_neg hne] at h
    exact Except.noConfusion h
  · intro h
    rw [if_pos h]
    exact ⟨_, rfl⟩

/-- A field error always surfaces in the collected error list. -/
theorem mem_bindErrors_of_bindField_error {specs : List FieldSpec}
    {req : Request} {f : FieldSpec} {e : ValidationError} (hf : f ∈ specs)
    (he : bindField req f = .error e) : e ∈ bindErrors specs req := by
  unfold bindErrors bindResults
  rw [List.mem_filterMap]
  exact ⟨.error e, he ▸ List.mem_map_of_mem _ hf, rfl⟩

/-- On overall success, every field's bound value is in the instance. -/
theorem mem_of_bind_ok {specs : List FieldSpec} {req : Request}
    {f : FieldSpec} {b : BoundField} {inst : List BoundField} (hf : f ∈ specs)
    (hb : bindField req f = .ok b) (hok : bind specs req = .ok inst) :
    b ∈ inst := by
  unfold bind at hok
  split at hok
  · cases hok
    unfold bindValues bindResults
    rw [List.mem_filterMap]
    exact ⟨.ok b, hb ▸ List.mem_map_of_mem _ hf, rfl⟩
  · exact Except.noConfusion hok

/-- A single field error makes the whole binding fail, with the error in
the reported list. -/
theorem bind_error_of_bindField_error {specs : List FieldSpec}
    {req : Request} {f : FieldSpec} {e : ValidationError} (hf : f ∈ specs)
    (he : bindField req f = .error e) :
    ∃ es, bind specs req = .error es ∧ e ∈ es := by
  have hmem := mem_bindErrors_of_bindField_error hf he
  refine ⟨bindErrors specs req, ?_, hmem⟩
  unfold bind
  rw [if_neg (List.ne_nil_of_mem hmem)]

/-! ## The claims -/

/-- C1: binding the body `{"name": "Foo", "price": 50.2}` against the
`Item` model succeeds, and serializing the bound instance under the
`ExcludeUnset` policy (as `GET /items/{item_id}` does for `"foo"`) yields
exactly `{"name": "Foo", "price": 50.2}` — `tax`, `description`, `tags`
and `image` are absent despite `tax` having a default. -/
theorem exclude_unset_roundtrip :
    (∃ inst,
      bind itemFields
          (Request.ofBody [("name", .str "Foo"), ("price", .num ⟨502, 1⟩)]) =
        .ok inst ∧
      shape .excludeUnset inst =
        [("name", .str "Foo"), ("price", .num ⟨502, 1⟩)]) ∧
    read_item_id "foo" =
      .response [("name", .str "Foo"), ("price", .num ⟨502, 1⟩)] :=
  ⟨⟨_, rfl, rfl⟩, rfl⟩

/-- C2: the `GreaterThan(0)` constraint on `Item.price` is strict:
a body with price `0` fails with exactly a `ConstraintViolation` naming
the bound, price `0.0001` succeeds, every negative price fails the same
way, and in general a value numerically equal to a `GreaterThan` bound
violates it. -/
theorem greater_than_strict :
    (bindErrors itemFields
        (Request.ofBody [("name", .str "Foo"), ("price", .num ⟨0, 0⟩)]) =
      [⟨.body, "price", .constraintViolation (.greaterThan ⟨0, 0⟩)⟩]) ∧
    (∃ inst,
      bind itemFields
          (Request.ofBody [("name", .str "Foo"), ("price", .num ⟨1, 4⟩)]) =
        .ok inst) ∧
    (∀ d : Decimal, d.toRat < 0 →
      bindErrors itemFields
          (Request.ofBody [("name", .str "Foo"), ("price", .num d)]) =
        [⟨.body, "price", .constraintViolation (.greaterThan ⟨0, 0⟩)⟩]) ∧
    (∀ b v : Decimal, v.toRat = b.toRat →
      Constraint.satisfied (.greaterThan b) (.num v) = false) := by
  refine ⟨rfl, ⟨_, rfl⟩, ?_, ?_⟩
  · intro d hd
    have hblt : Decimal.blt ⟨0, 0⟩ d = false := by
      rw [Bool.eq_false_iff]
      intro hx
      rw [Decimal.blt_eq_true_iff] at hx
      rw [show Decimal.toRat ⟨0, 0⟩ = 0 by norm_num [Decimal.toRat]] at hx
      linarith
    simp [bindErrors, bindResults, itemFields, descriptionSpec, bindField,
          bindPresent, bindAbsent, coerceField, coercePrimJson, firstViolated,
          Constraint.satisfied, Request.ofBody, List.lookup, List.find?, hblt]
  · intro b v h
    rw [Constraint.satisfied, Bool.eq_false_iff]
    intro hx
    rw [Decimal.blt_eq_true_iff, h] at hx
    exact lt_irrefl _ hx

/-- C2 witness: a concrete negative price (`-0.5`) fails with the price
`ConstraintViolation`, and a concrete decimal numerically equal to the
bound (`0.00` vs `0`) fails the strict comparison. -/
theorem greater_than_strict_witness :
    ((Decimal.toRat ⟨-5, 1⟩ < 0) ∧
      bindErrors itemFields
          (Request.ofBody [("name", .str "Foo"), ("price", .num ⟨-5, 1⟩)]) =
        [⟨.body, "price", .constraintViolation (.greaterThan ⟨0, 0⟩)⟩]) ∧
    ((Decimal.toRat ⟨0, 2⟩ = Decimal.toRat ⟨0, 0⟩) ∧
      Constraint.satisfied (.greaterThan ⟨0, 0⟩) (.num ⟨0, 2⟩) = false) :=
  ⟨⟨by norm_num [Decimal.toRat],
    greater_than_strict.2.2.1 ⟨-5, 1⟩ (by norm_num [Decimal.toRat])⟩,
   ⟨by norm_num [Decimal.toRat],
    greater_than_strict.2.2.2 ⟨0, 0⟩ ⟨0, 2⟩ (by norm_num [Decimal.toRat])⟩⟩

/-- C3: requesting model name `"lenet"` succeeds with a response whose
`message` field is the message the `lenet` branch binds
(`"LeCNN all the images"`); any path segment outside the three permitted
literals fails binding with a `TypeMismatch` listing
`alexnet, resnet, lenet` — both at the route level and for the binder's
enum coercion of the path parameter. -/
theorem enum_path_binding :
    (handle_get_model "lenet" =
      .ok [("model_name", .str "lenet"),
           ("message", .str "LeCNN all the images")]) ∧
    ((get_model .lenet).lookup "message" =
      some (.str "LeCNN all the images")) ∧
    (∀ s : String, s ∉ modelNameLits →
      handle_get_model s =
        .error ⟨.path, "model_name", .typeMismatch modelNameLits⟩ ∧
      bindField (Request.ofPath [("model_name", s)]) modelNamePathSpec =
        .error ⟨.path, "model_name", .typeMismatch modelNameLits⟩) := by
  refine ⟨rfl, rfl, ?_⟩
  intro s h
  constructor
  · have h' := h
    simp [modelNameLits] at h'
    simp [handle_get_model, ModelName.ofString?, h'.1, h'.2.1, h'.2.2]
  · simp [bindField, modelNamePathSpec, Request.rawValue, Request.ofPath,
          bindPresent, coercePrimRaw, h]

/-- C3 witness: the unrecognized segment `"squeezenet"` fails with the
`TypeMismatch` listing the permitted values. -/
theorem enum_path_binding_witness :
    handle_get_model "squeezenet" =
      .error ⟨.path, "model_name", .typeMismatch modelNameLits⟩ ∧
    bindField (Request.ofPath [("model_name", "squeezenet")])
        modelNamePathSpec =
      .error ⟨.path, "model_name", .typeMismatch modelNameLits⟩ :=
  enum_path_binding.2.2 "squeezenet" (by decide)

/-- C4: the missing-value policy of `read_user_item`: a request without
the required `needy` query parameter fails binding with a `Missing` error
for `needy` among the reported errors; an absent `q` binds to null (and
appears as null in any successful instance); an absent `short` binds to
its declared default `false`. -/
theorem missing_value_policy :
    (∀ req : Request, req.queryParams.lookup "needy" = none →
      ∃ es, bind readUserItemSpecs req = .error es ∧
        (⟨.query, "needy", .missing⟩ : ValidationError) ∈ es) ∧
    (∀ req : Request, req.queryParams.lookup "q" = none →
      bindField req qUserItemSpec = .ok ⟨"q", .null, false⟩ ∧
      ∀ inst, bind readUserItemSpecs req = .ok inst →
        (⟨"q", .null, false⟩ : BoundField) ∈ inst) ∧
    (∀ req : Request, req.queryParams.lookup "short" = none →
      bindField req shortSpec = .ok ⟨"short", .bool false, false⟩ ∧
      ∀ inst, bind readUserItemSpecs req = .ok inst →
        (⟨"short", .bool false, false⟩ : BoundField) ∈ inst) := by
  refine ⟨?_, ?_, ?_⟩
  · intro req h
    have hb : bindField req needySpec = .error ⟨.query, "needy", .missing⟩ := by
      simp [bindField, needySpec, Request.rawValue, bindAbsent, h]
    exact bind_error_of_bindField_error (by simp [readUserItemSpecs]) hb
  · intro req h
    have hq : bindField req qUserItemSpec = .ok ⟨"q", .null, false⟩ := by
      simp [bindField, qUserItemSpec, Request.rawValue, bindAbsent, h]
    exact ⟨hq, fun inst hok =>
      mem_of_bind_ok (by simp [readUserItemSpecs]) hq hok⟩
  · intro req h
    have hs : bindField req shortSpec = .ok ⟨"short", .bool false, false⟩ := by
      simp [bindField, shortSpec, Request.rawValue, bindAbsent, h]
    exact ⟨hs, fun inst hok =>
      mem_of_bind_ok (by simp [readUserItemSpecs]) hs hok⟩

/-- C4 witness: a request supplying only `item_id` misses `needy` (so
binding fails with `Missing` for `needy`), while the absent `q` and
`short` bind to null and `false`. -/
theorem missing_value_policy_witness :
    (∃ es,
      bind readUserItemSpecs (Request.ofQuery [("item_id", "plumbus")]) =
        .error es ∧
      (⟨.query, "needy", .missing⟩ : ValidationError) ∈ es) ∧
    bindField (Request.ofQuery [("item_id", "plumbus")]) qUserItemSpec =
      .ok ⟨"q", .null, false⟩ ∧
    bindField (Request.ofQuery [("item_id", "plumbus")]) shortSpec =
      .ok ⟨"short", .bool false, false⟩ :=
  ⟨missing_value_policy.1 (Request.ofQuery [("item_id", "plumbus")]) rfl,
   (missing_value_policy.2.1 (Request.ofQuery [("item_id", "plumbus")]) rfl).1,
   (missing_value_policy.2.2 (Request.ofQuery [("item_id", "plumbus")]) rfl).1⟩

set_option maxRecDepth 100000 in
/-- C5: validation does not short-circuit: the `PUT /items/{item_id}`
request with a non-integer `item_id`, an over-long `description` and a
non-positive `price` reports one `ValidationError` per invalid field, in
declaration order (`item_id`, then the `Item` fields in model order, so
`description` before `price`); and in general binding succeeds if and
only if zero errors were collected. -/
theorem no_short_circuit_aggregation :
    (longDescription.length = 301) ∧
    (bindErrors updateItemSpecs multiFaultRequest =
      [⟨.path, "item_id", .typeMismatch []⟩,
       ⟨.body, "description", .constraintViolation (.maxLength 300)⟩,
       ⟨.body, "price", .constraintViolation (.greaterThan ⟨0, 0⟩)⟩]) ∧
    (∀ req : Request,
      (∃ inst, bind updateItemSpecs req = .ok inst) ↔
        bindErrors updateItemSpecs req = []) :=
  ⟨rfl, rfl, fun req => bind_ok_iff updateItemSpecs req⟩

/-- C6: the string length bounds of the `q` parameter of `GET /items/`
are inclusive at the boundary: length `< 3` fails with the `MinLength(3)`
`ConstraintViolation`, length `> 50` fails with the `MaxLength(50)` one,
lengths exactly `3` and exactly `50` succeed; and a `description` of
length exactly `300` satisfies `Item`'s `MaxLength(300)`. -/
theorem length_bounds_inclusive :
    (∀ s : String, s.length < 3 →
      bindField (Request.ofQuery [("q", s)]) qItemsSpec =
        .error ⟨.query, "q", .constraintViolation (.minLength 3)⟩) ∧
    (∀ s : String, 50 < s.length →
      bindField (Request.ofQuery [("q", s)]) qItemsSpec =
        .error ⟨.query, "q", .constraintViolation (.maxLength 50)⟩) ∧
    (∀ s : String, s.length = 3 ∨ s.length = 50 →
      bindField (Request.ofQuery [("q", s)]) qItemsSpec =
        .ok ⟨"q", .str s, true⟩) ∧
    (∀ s : String, s.length = 300 →
      bindField (Request.ofBody [("description", .str s)]) descriptionSpec =
        .ok ⟨"description", .str s, true⟩) := by
  refine ⟨?_, ?_, ?_, ?_⟩
  · intro s h
    have h1 : ¬ (3 ≤ s.length) := by omega
    simp [bindField, qItemsSpec, Request.rawValue, Request.ofQuery,
          bindPresent, coercePrimRaw, firstViolated, Constraint.satisfied,
          List.find?, h1]
  · intro s h
    have h1 : 3 ≤ s.length := by omega
    have h2 : ¬ (s.length ≤ 50) := by omega
    simp [bindField, qItemsSpec, Request.rawValue, Request.ofQuery,
          bindPresent, coercePrimRaw, firstViolated, Constraint.satisfied,
          List.find?, h1, h2]
  · intro s h
    have h1 : 3 ≤ s.length := by omega
    have h2 : s.length ≤ 50 := by omega
    simp [bindField, qItemsSpec, Request.rawValue, Request.ofQuery,
          bindPresent, coercePrimRaw, firstViolated, Constraint.satisfied,
          List.find?, h1, h2]
  · intro s h
    have h1 : s.length ≤ 300 := by omega
    simp [bindField, descriptionSpec, Request.ofBody, bindPresent,
          coerceField, coercePrimJson, firstViolated, Constraint.satisfied,
          List.lookup, List.find?, h1]

set_option maxRecDepth 8000 in
/-- C6 witness: concrete strings of length 2, 51, 3, 50 and 300 exercise
every case of the length-bound claim. -/
theorem length_bounds_inclusive_witness :
    bindField (Request.ofQuery [("q", "ab")]) qItemsSpec =
      .error ⟨.query, "q", .constraintViolation (.minLength 3)⟩ ∧
    bindField
        (Request.ofQuery
          [("q", "012345678901234567890123456789012345678901234567890")])
        qItemsSpec =
      .error ⟨.query, "q", .constraintViolation (.maxLength 50)⟩ ∧
    bindField (Request.ofQuery [("q", "abc")]) qItemsSpec =
      .ok ⟨"q", .str "abc", true⟩ ∧
    bindField
        (Request.ofQuery
          [("q", "01234567890123456789012345678901234567890123456789")])
        qItemsSpec =
      .ok ⟨"q", .str "01234567890123456789012345678901234567890123456789",
           true⟩ ∧
    bindField (Request.ofBody [("description", .str boundaryDescription)])
        descriptionSpec =
      .ok ⟨"description", .str boundaryDescription, true⟩ :=
  ⟨length_bounds_inclusive.1 "ab" (by decide),
   length_bounds_inclusive.2.1 _ (by decide),
   length_bounds_inclusive.2.2.1 "abc" (Or.inl (by decide)),
   length_bounds_inclusive.2.2.1 _ (Or.inr (by decide)),
   length_bounds_inclusive.2.2.2 boundaryDescription
     (by simp [boundaryDescription, String.length])⟩

/-- C7: for every item stored in the `items` table,
`GET /items/{item_id}/name` (`IncludeOnly {name, description}`) responds
with exactly the `name` and `description` fields, and
`GET /items/{item_id}/public` (`ExcludeOnly {tax}`) responds with every
`Item` field except `tax`, both in the model's original field order. -/
theorem include_exclude_shaping :
    ∀ kv ∈ items,
      (∃ r, read_item_name kv.1 = .response r ∧
        r.map Prod.fst = ["name", "description"]) ∧
      (∃ r, read_item_public_data kv.1 = .response r ∧
        r.map Prod.fst = ["name", "description", "price", "tags", "image"]) := by
  intro kv hkv
  fin_cases hkv <;> exact ⟨⟨_, rfl, rfl⟩, ⟨_, rfl, rfl⟩⟩

/-- C7 witness: the stored item `"foo"` shaped by both policies. -/
theorem include_exclude_shaping_witness :
    (∃ r, read_item_name "foo" = .response r ∧
      r.map Prod.fst = ["name", "description"]) ∧
    (∃ r, read_item_public_data "foo" = .response r ∧
      r.map Prod.fst = ["name", "description", "price", "tags", "image"]) :=
  include_exclude_shaping _ (List.mem_cons_self _ _)

/-- C8: the `{file_path:path}` wildcard of `GET /files/...` captures the
entire remaining path as one literal string including internal `/`
separators; in particular `"a/b/c.txt"` binds `file_path` to exactly
`"a/b/c.txt"` and the response is `{"file_path": "a/b/c.txt"}`. -/
theorem wildcard_path_capture :
    (∀ rest : List String,
      matchFilesRoute ("files" :: rest) = some (String.intercalate "/" rest)) ∧
    (∀ rest : List String,
      handle_read_file ("files" :: rest) =
        some [("file_path", .str (String.intercalate "/" rest))]) ∧
    handle_read_file ["files", "a", "b", "c.txt"] =
      some [("file_path", .str "a/b/c.txt")] :=
  ⟨fun _ => rfl, fun _ => rfl, rfl⟩

/-- C9: every `item_id` outside the keys of the backing dictionary makes
the four lookup handlers raise an unhandled `KeyError` (`items` has only
`foo`, `bar`, `baz`; `vehicle_items` only `item1`, `item2`). -/
theorem unguarded_dict_lookup :
    (∀ id : String, id ∉ ["foo", "bar", "baz"] →
      read_item_id id = .keyError id ∧
      read_item_name id = .keyError id ∧
      read_item_public_data id = .keyError id) ∧
    (∀ id : String, id ∉ ["item1", "item2"] →
      read_vehicle_item id = .keyError id) := by
  constructor
  · intro id h
    simp at h
    have h1 : (id == "foo") = false := beq_eq_false_iff_ne.mpr h.1
    have h2 : (id == "bar") = false := beq_eq_false_iff_ne.mpr h.2.1
    have h3 : (id == "baz") = false := beq_eq_false_iff_ne.mpr h.2.2
    refine ⟨?_, ?_, ?_⟩ <;>
      simp [read_item_id, read_item_name, read_item_public_data, dictGet,
            items, List.lookup, h1, h2, h3]
  · intro id h
    simp at h
    have h1 : (id == "item1") = false := beq_eq_false_iff_ne.mpr h.1
    have h2 : (id == "item2") = false := beq_eq_false_iff_ne.mpr h.2
    simp [read_vehicle_item, dictGet, vehicle_items, List.lookup, h1, h2]

/-- C9 witness: the absent keys `"qux"` and `"item3"` raise `KeyError`. -/
theorem unguarded_dict_lookup_witness :
    (read_item_id "qux" = .keyError "qux" ∧
     read_item_name "qux" = .keyError "qux" ∧
     read_item_public_data "qux" = .keyError "qux") ∧
    read_vehicle_item "item3" = .keyError "item3" :=
  ⟨unguarded_dict_lookup.1 "qux" (by decide),
   unguarded_dict_lookup.2 "item3" (by decide)⟩

/-- C10: `POST /user/` never discloses the password: the response shaped
by `UserOut` holds exactly `username`, `email` and `full_name` — neither
`password` nor `hashed_password` appears — and two inputs differing only
in their password produce identical responses. -/
theorem user_out_no_password_disclosure :
    (∀ u : UserIn,
      (create_user u).map Prod.fst = ["username", "email", "full_name"]) ∧
    (∀ u : UserIn,
      (create_user u).lookup "password" = none ∧
      (create_user u).lookup "hashed_password" = none) ∧
    (∀ u1 u2 : UserIn, u1.username = u2.username → u1.email = u2.email →
      u1.full_name = u2.full_name → create_user u1 = create_user u2) := by
  refine ⟨fun u => rfl, fun u => ⟨rfl, rfl⟩, ?_⟩
  intro u1 u2 h1 h2 h3
  simp [create_user, serializeUserOut, fake_save_user, h1, h2, h3]

/-- C10 witness: two concrete users differing only in their password get
identical responses. -/
theorem user_out_no_password_disclosure_witness :
    create_user ⟨"alice", "alice@example.com", none, "hunter2"⟩ =
      create_user ⟨"alice", "alice@example.com", none, "hunter3"⟩ :=
  user_out_no_password_disclosure.2.2 _ _ rfl rfl rfl

end FastapiTutorial
